import Mathlib

/-!
Shallow embedding of `src/bigtable_rs/src/bigtable/read_rows.rs`
(`decode_read_rows_response`), the streaming chunk reassembler of the
`bigtable_rs` crate, together with theorems settling the specification
claims about it.

Modelling choices:
- byte sequences (`Vec<u8>`) become `List Nat`;
- `std::time::Duration` becomes a `Nat` counting nanoseconds (a Rust
  `Duration` is a nanosecond count split into seconds and sub-second
  nanoseconds; `as_secs` truncates to whole seconds);
- wall-clock time is made explicit: each incoming stream message carries
  the elapsed duration observed at the per-batch deadline check
  (`Instant::now().duration_since(started)` in the source);
- the `tonic::Streaming` source becomes a finite list of stream items,
  an item being either a successful `ReadRowsResponse` (a batch of
  chunks, paired with the elapsed time at its deadline check) or a
  transport error propagated by the `?` operator; the end of the list is
  the clean end-of-stream (`Ok(None)`);
- the `warn!` diagnostic is modelled by a counter in the decoder state;
- the loop-carried local variables of the Rust function become the
  fields of an explicit `DecodeState`, and the body of the per-chunk
  `for` loop becomes the pure function `processChunk`, split into the
  four labelled phases of the source (row-key signal, cell-start signal,
  value accumulation, row-status signal).
-/

namespace BigtableRs

/-- Byte strings (`Vec<u8>` in the source). -/
abbrev Bytes := List Nat

/-- `RowKey` as used by `decode_read_rows_response`: a byte string. -/
abbrev RowKey := Bytes

/-- `read_rows_response::cell_chunk::RowStatus`: the commit / reset
oneof carried by a chunk (absent means "continue"). -/
inductive RowStatus
  | CommitRow
  | ResetRow
deriving DecidableEq, Repr

/-- `RowCell` as constructed in `read_rows.rs`: family name, qualifier,
value and timestamp of one completed cell. -/
structure RowCell where
  family_name : String
  qualifier : Bytes
  value : Bytes
  timestamp_micros : Int
deriving DecidableEq, Repr

/-- `CellChunk` as read by `decode_read_rows_response`: possibly-empty
row key, optional family name, optional qualifier, timestamp, a value
fragment and an optional row status. -/
structure CellChunk where
  row_key : Bytes
  family_name : Option String
  qualifier : Option Bytes
  timestamp_micros : Int
  value : Bytes
  row_status : Option RowStatus
deriving DecidableEq, Repr

/-- `std::time::Duration`, modelled as a nanosecond count. -/
abbrev Duration := Nat

/-- `Duration::as_secs`: whole seconds, truncating sub-second nanos. -/
def Duration.as_secs (d : Duration) : Nat := d / 1000000000

/-- The error type of the decode call. `TimeoutError` is built exactly
as in the source (`Error::TimeoutError(timeout.as_secs())`). `RpcError`
stands for a transport error propagated verbatim by
`rrr.message().await?`; its payload is left opaque. -/
inductive Error
  | TimeoutError (secs : Nat)
  | RpcError (msg : String)
deriving DecidableEq, Repr

/-- The loop-carried state of `decode_read_rows_response`: the assembled
rows, the open row key and its accumulated cells, the pending-cell
fields (`cell_family_name`, `cell_name`, `cell_timestamp`, `cell_value`)
and the number of `warn!` diagnostics emitted so far. -/
structure DecodeState where
  rows : List (RowKey × List RowCell)
  row_key : Option RowKey
  row_data : List RowCell
  cell_family_name : Option String
  cell_name : Option Bytes
  cell_timestamp : Int
  cell_value : Bytes
  warnings : Nat
deriving DecidableEq, Repr

/-- Initial state of the loop: everything empty / unset. -/
def initState : DecodeState :=
  { rows := [], row_key := none, row_data := [],
    cell_family_name := none, cell_name := none,
    cell_timestamp := 0, cell_value := [], warnings := 0 }

/-- Phase 1, "Starting a new row?": a non-empty chunk row key replaces
the open row key; an empty one is ignored. -/
def applyRowKey (s : DecodeState) (c : CellChunk) : DecodeState :=
  if c.row_key = [] then s else { s with row_key := some c.row_key }

/-- Phase 2, "Starting a new cell?": if the chunk carries a qualifier
(present, possibly empty), any pending cell is closed into `row_data`
(family defaulting to the empty string, value buffer reset) and the
chunk's qualifier, family name and timestamp become the new pending
cell. -/
def startCell (s : DecodeState) (c : CellChunk) : DecodeState :=
  match c.qualifier with
  | none => s
  | some q =>
    let s1 :=
      match s.cell_name with
      | none => s
      | some n =>
        { s with
          row_data := s.row_data ++
            [RowCell.mk (s.cell_family_name.getD "") n
              s.cell_value s.cell_timestamp],
          cell_value := [] }
    { s1 with
      cell_name := some q,
      cell_family_name := c.family_name,
      cell_timestamp := c.timestamp_micros }

/-- Phase 3, value accumulation: the chunk's value fragment is appended
to the pending value buffer unconditionally. -/
def appendValue (s : DecodeState) (c : CellChunk) : DecodeState :=
  { s with cell_value := s.cell_value ++ c.value }

/-- Phase 4, "End of a row?": on `CommitRow`, close any pending cell
(warning if none), then, if a row key is set, emit the row and reset the
row key and cell list; on `ResetRow`, clear the row key and cell list
only. -/
def applyStatus (s : DecodeState) (c : CellChunk) : DecodeState :=
  match c.row_status with
  | none => s
  | some RowStatus.CommitRow =>
    let s1 :=
      match s.cell_name with
      | some n =>
        { s with
          row_data := s.row_data ++
            [RowCell.mk (s.cell_family_name.getD "") n
              s.cell_value s.cell_timestamp],
          cell_value := [],
          cell_name := none,
          cell_family_name := none }
      | none => { s with warnings := s.warnings + 1 }
    match s1.row_key with
    | some k =>
      { s1 with
        rows := s1.rows ++ [(k, s1.row_data)],
        row_data := [],
        row_key := none }
    | none => s1
  | some RowStatus.ResetRow =>
    { s with row_key := none, row_data := [] }

/-- One iteration of the per-chunk `for` loop of
`decode_read_rows_response`. -/
def processChunk (s : DecodeState) (c : CellChunk) : DecodeState :=
  applyStatus (appendValue (startCell (applyRowKey s c) c) c) c

/-- Processing of one batch of chunks (one `ReadRowsResponse`). -/
def runChunks (s : DecodeState) (cs : List CellChunk) : DecodeState :=
  cs.foldl processChunk s

/-- One pull from the `tonic::Streaming` source: either a message (with
the elapsed wall-clock duration observed at its deadline check) or a
transport error; the end of the item list is clean end-of-stream. -/
inductive StreamItem
  | msg (elapsed : Duration) (chunks : List CellChunk)
  | fail (e : String)
deriving DecidableEq, Repr

/-- The `while let` loop of `decode_read_rows_response`: pull an item,
propagate transport errors, check the deadline once per batch (strict
comparison, as in `duration_since(started) > *timeout`), fold the batch
into the state, and return the assembled rows at end-of-stream. -/
def decodeGo (timeout : Option Duration) (s : DecodeState) :
    List StreamItem → Except Error (List (RowKey × List RowCell))
  | [] => Except.ok s.rows
  | StreamItem.fail e :: _ => Except.error (Error.RpcError e)
  | StreamItem.msg elapsed chunks :: rest =>
    match timeout with
    | some t =>
      if t < elapsed then
        Except.error (Error.TimeoutError (Duration.as_secs t))
      else
        decodeGo timeout (runChunks s chunks) rest
    | none => decodeGo timeout (runChunks s chunks) rest

/-- `decode_read_rows_response`: decode a whole stream from the initial
state. -/
def decodeReadRowsResponse (timeout : Option Duration)
    (items : List StreamItem) :
    Except Error (List (RowKey × List RowCell)) :=
  decodeGo timeout initState items

/-! ## Theorems about the claims -/

/-- C1. The claim says a `CommitRow` arriving with no row key discards
the accumulated cell list silently, so that none of those cells appear
in any row of the output. Counterexample: a keyless commit closes the
pending cell into `row_data`, which is NOT reset (the reset happens only
inside the `if let Some(row_key)` branch); the cell `{"f",[1],[9],5}`
accumulated before that commit then appears in the later row `[7]`. -/
theorem c1_counterexample :
    decodeReadRowsResponse none
      [StreamItem.msg 0
        [CellChunk.mk [] (some "f") (some [1]) 5 [9]
          (some RowStatus.CommitRow),
         CellChunk.mk [7] (some "g") (some [2]) 6 [8]
          (some RowStatus.CommitRow)]] =
    Except.ok [([7],
      [RowCell.mk "f" [1] [9] 5, RowCell.mk "g" [2] [8] 6])] := rfl

/-- C1 (amended). When `CommitRow` arrives with no open row key (for a
chunk carrying no new row key and no qualifier), no row is emitted for
that commit, but the accumulated cell list is retained, not discarded:
any pending cell is closed into it and it stays as the open cell list,
so those cells can appear in a later committed row. -/
theorem c1_commit_without_key_retains_cells
    (s : DecodeState) (c : CellChunk)
    (hrk : s.row_key = none) (hck : c.row_key = [])
    (hq : c.qualifier = none)
    (hst : c.row_status = some RowStatus.CommitRow) :
    (processChunk s c).rows = s.rows ∧
    (processChunk s c).row_key = none ∧
    (processChunk s c).row_data =
      s.row_data ++
        (match s.cell_name with
         | some n => [RowCell.mk (s.cell_family_name.getD "") n
             (s.cell_value ++ c.value) s.cell_timestamp]
         | none => []) := by
  unfold processChunk applyStatus appendValue startCell applyRowKey
  cases h : s.cell_name <;> simp [hck, hq, hst, h, hrk]

/-- C1 (witness for the amended theorem): concrete keyless commit with
a pending cell. -/
theorem c1_commit_without_key_retains_cells_witness :
    (processChunk
      { initState with cell_name := some [1], cell_value := [9] }
      (CellChunk.mk [] none none 0 [] (some RowStatus.CommitRow))).rows
        = [] ∧
    (processChunk
      { initState with cell_name := some [1], cell_value := [9] }
      (CellChunk.mk [] none none 0 []
        (some RowStatus.CommitRow))).row_key = none ∧
    (processChunk
      { initState with cell_name := some [1], cell_value := [9] }
      (CellChunk.mk [] none none 0 []
        (some RowStatus.CommitRow))).row_data =
      [] ++ [RowCell.mk "" [1] ([9] ++ []) 0] :=
  c1_commit_without_key_retains_cells
    { initState with cell_name := some [1], cell_value := [9] }
    (CellChunk.mk [] none none 0 [] (some RowStatus.CommitRow))
    rfl rfl rfl rfl

/-- C2. The claim says that after chunks building partial row data for
K (including a pending uncommitted cell), a `ResetRow`, and a fresh
full row for K2 with `CommitRow`, no cell or byte originating from the
K chunks appears in the output. Counterexample: `ResetRow` does not
clear the pending cell, so the pending K cell `{"F",[10],[5],100}` is
closed by K2's qualifier chunk and appears as the first cell of row
`[2]`. -/
theorem c2_counterexample :
    decodeReadRowsResponse none
      [StreamItem.msg 0
        [CellChunk.mk [1] (some "F") (some [10]) 100 [5] none,
         CellChunk.mk [] none none 0 [] (some RowStatus.ResetRow),
         CellChunk.mk [2] (some "G") (some [11]) 200 [6]
          (some RowStatus.CommitRow)]] =
    Except.ok [([2],
      [RowCell.mk "F" [10] [5] 100, RowCell.mk "G" [11] [6] 200])] := rfl

/-- C2 (amended). For a chunk building a pending uncommitted cell for
K, then `ResetRow`, then a fresh full row for K2 ending in `CommitRow`,
the output is exactly one row, keyed K2; the row key K and any cells
already committed to K's cell list are gone, but the pending K cell
(not cleared by Reset) is closed when K2's qualifier chunk arrives and
appears as the first cell of K2's row, followed by K2's own cell. -/
theorem c2_reset_leaks_pending_cell
    (K K2 Qa Qb V1 V2 : Bytes) (F G : String) (Ta Tb : Int)
    (hK2 : K2 ≠ []) :
    decodeReadRowsResponse none
      [StreamItem.msg 0
        [CellChunk.mk K (some F) (some Qa) Ta V1 none,
         CellChunk.mk [] none none 0 [] (some RowStatus.ResetRow),
         CellChunk.mk K2 (some G) (some Qb) Tb V2
          (some RowStatus.CommitRow)]] =
    Except.ok [(K2, [RowCell.mk F Qa V1 Ta, RowCell.mk G Qb V2 Tb])] := by
  by_cases hK : K = [] <;>
    simp [decodeReadRowsResponse, decodeGo, runChunks, processChunk,
      applyRowKey, startCell, appendValue, applyStatus, initState,
      hK, hK2]

/-- C2 (witness for the amended theorem): the concrete leak trace. -/
theorem c2_reset_leaks_pending_cell_witness :
    decodeReadRowsResponse none
      [StreamItem.msg 0
        [CellChunk.mk [1] (some "F") (some [10]) 100 [5] none,
         CellChunk.mk [] none none 0 [] (some RowStatus.ResetRow),
         CellChunk.mk [2] (some "G") (some [11]) 200 [6]
          (some RowStatus.CommitRow)]] =
    Except.ok [([2],
      [RowCell.mk "F" [10] [5] 100, RowCell.mk "G" [11] [6] 200])] :=
  c2_reset_leaks_pending_cell [1] [2] [10] [11] [5] [6] "F" "G" 100 200
    (by decide)

/-- C3. Processing a chunk whose row status is `ResetRow` (a pure reset
chunk: no qualifier, empty value fragment, the row key being irrelevant)
sets the open row key to `none` and empties the accumulated cell list,
while leaving the pending qualifier, pending family name, pending
timestamp and accumulated value buffer — and everything else —
unchanged. -/
theorem c3_reset_clears_row_only
    (s : DecodeState) (c : CellChunk)
    (hst : c.row_status = some RowStatus.ResetRow)
    (hq : c.qualifier = none) (hv : c.value = []) :
    processChunk s c = { s with row_key := none, row_data := [] } := by
  obtain ⟨rk, fam, q, ts, v, st⟩ := c
  change st = _ at hst
  change q = _ at hq
  change v = _ at hv
  subst hst; subst hq; subst hv
  by_cases hK : rk = [] <;>
    simp [processChunk, applyRowKey, startCell, appendValue, applyStatus,
      hK]

/-- C3 (witness): a pure reset chunk applied to a state with a pending
cell and accumulated row data. -/
theorem c3_reset_clears_row_only_witness :
    processChunk
      { rows := [], row_key := some [1],
        row_data := [RowCell.mk "F" [10] [5] 100],
        cell_family_name := some "G", cell_name := some [11],
        cell_timestamp := 7, cell_value := [6], warnings := 0 }
      (CellChunk.mk [] none none 0 [] (some RowStatus.ResetRow)) =
    { rows := [], row_key := none, row_data := [],
      cell_family_name := some "G", cell_name := some [11],
      cell_timestamp := 7, cell_value := [6], warnings := 0 } :=
  c3_reset_clears_row_only
    { rows := [], row_key := some [1],
      row_data := [RowCell.mk "F" [10] [5] 100],
      cell_family_name := some "G", cell_name := some [11],
      cell_timestamp := 7, cell_value := [6], warnings := 0 }
    (CellChunk.mk [] none none 0 [] (some RowStatus.ResetRow))
    rfl rfl rfl

/-- C4. When a chunk carrying a qualifier starts a new cell, the stored
pending family name is replaced by that chunk's `family_name` field even
when that field is absent, so the previous family name is discarded.
Consequently a cell whose starting chunk carried no family name is
emitted with the empty string as its family name, both on the
close-by-next-qualifier path and on the close-by-commit path; and a
chunk with no qualifier and no commit never changes the stored family
name. -/
theorem c4_family_name_replaced_on_new_cell
    (s : DecodeState) (c : CellChunk) :
    (∀ q : Bytes, c.qualifier = some q →
      (startCell s c).cell_family_name = c.family_name) ∧
    (∀ (q n : Bytes), c.qualifier = some q → s.cell_name = some n →
      s.cell_family_name = none →
      (startCell s c).row_data =
        s.row_data ++ [RowCell.mk "" n s.cell_value s.cell_timestamp]) ∧
    (∀ (n : Bytes) (k : RowKey), c.qualifier = none →
      c.row_status = some RowStatus.CommitRow →
      s.cell_name = some n → s.cell_family_name = none →
      s.row_key = some k → c.row_key = [] →
      (processChunk s c).rows =
        s.rows ++ [(k, s.row_data ++
          [RowCell.mk "" n (s.cell_value ++ c.value)
            s.cell_timestamp])]) ∧
    (c.qualifier = none →
      (c.row_status = none ∨ c.row_status = some RowStatus.ResetRow) →
      (processChunk s c).cell_family_name = s.cell_family_name) := by
  obtain ⟨rk, fam, cq, ts, v, st⟩ := c
  refine ⟨?_, ?_, ?_, ?_⟩
  · intro q hq
    change cq = some q at hq
    subst hq
    cases h : s.cell_name <;> simp [startCell, h]
  · intro q n hq hn hf
    change cq = some q at hq
    subst hq
    simp [startCell, hn, hf]
  · intro n k hq hst hn hf hrk hck
    change cq = none at hq
    change st = _ at hst
    change rk = [] at hck
    subst hq; subst hst; subst hck
    simp [processChunk, applyRowKey, startCell, appendValue, applyStatus,
      hn, hf, hrk]
  · intro hq hst
    change cq = none at hq
    subst hq
    rcases hst with h | h
    · change st = none at h
      subst h
      by_cases hK : rk = [] <;>
        simp [processChunk, applyRowKey, startCell, appendValue,
          applyStatus, hK]
    · change st = some RowStatus.ResetRow at h
      subst h
      by_cases hK : rk = [] <;>
        simp [processChunk, applyRowKey, startCell, appendValue,
          applyStatus, hK]

/-- C4 (witness): a state with a pending cell whose starting chunk
carried no family name, hit by a new qualifier chunk without a family
name, by a commit, and by a plain continuation chunk. -/
theorem c4_family_name_replaced_witness :
    (startCell
      { rows := [], row_key := some [3], row_data := [],
        cell_family_name := none, cell_name := some [1],
        cell_timestamp := 5, cell_value := [2], warnings := 0 }
      (CellChunk.mk [] none (some [4]) 9 [7] none)).cell_family_name =
        none ∧
    (startCell
      { rows := [], row_key := some [3], row_data := [],
        cell_family_name := none, cell_name := some [1],
        cell_timestamp := 5, cell_value := [2], warnings := 0 }
      (CellChunk.mk [] none (some [4]) 9 [7] none)).row_data =
        [] ++ [RowCell.mk "" [1] [2] 5] ∧
    (processChunk
      { rows := [], row_key := some [3], row_data := [],
        cell_family_name := none, cell_name := some [1],
        cell_timestamp := 5, cell_value := [2], warnings := 0 }
      (CellChunk.mk [] none none 0 [7]
        (some RowStatus.CommitRow))).rows =
        [] ++ [([3], [] ++ [RowCell.mk "" [1] ([2] ++ [7]) 5])] ∧
    (processChunk
      { rows := [], row_key := some [3], row_data := [],
        cell_family_name := none, cell_name := some [1],
        cell_timestamp := 5, cell_value := [2], warnings := 0 }
      (CellChunk.mk [] none none 0 [7] none)).cell_family_name =
        none := by
  refine ⟨?_, ?_, ?_, ?_⟩
  · exact (c4_family_name_replaced_on_new_cell
      { rows := [], row_key := some [3], row_data := [],
        cell_family_name := none, cell_name := some [1],
        cell_timestamp := 5, cell_value := [2], warnings := 0 }
      (CellChunk.mk [] none (some [4]) 9 [7] none)).1 [4] rfl
  · exact (c4_family_name_replaced_on_new_cell
      { rows := [], row_key := some [3], row_data := [],
        cell_family_name := none, cell_name := some [1],
        cell_timestamp := 5, cell_value := [2], warnings := 0 }
      (CellChunk.mk [] none (some [4]) 9 [7] none)).2.1 [4] [1]
      rfl rfl rfl
  · exact (c4_family_name_replaced_on_new_cell
      { rows := [], row_key := some [3], row_data := [],
        cell_family_name := none, cell_name := some [1],
        cell_timestamp := 5, cell_value := [2], warnings := 0 }
      (CellChunk.mk [] none none 0 [7]
        (some RowStatus.CommitRow))).2.2.1 [1] [3]
      rfl rfl rfl rfl rfl rfl
  · exact (c4_family_name_replaced_on_new_cell
      { rows := [], row_key := some [3], row_data := [],
        cell_family_name := none, cell_name := some [1],
        cell_timestamp := 5, cell_value := [2], warnings := 0 }
      (CellChunk.mk [] none none 0 [7] none)).2.2.2 rfl (Or.inl rfl)

/-- C5. A chunk defining cell A (qualifier Qa), then a chunk defining
cell B (qualifier Qb, no explicit close of A), then a `CommitRow` chunk
yield exactly one row whose cells are `[A, B]` in that order; and after
the second chunk (the moment B's qualifier arrives) A has already been
closed and appended to the open row's cell list. -/
theorem c5_multi_cell_row
    (K Qa Qb Va Vb : Bytes) (F G : String) (Ta Tb : Int)
    (hK : K ≠ []) :
    decodeReadRowsResponse none
      [StreamItem.msg 0
        [CellChunk.mk K (some F) (some Qa) Ta Va none,
         CellChunk.mk [] (some G) (some Qb) Tb Vb none,
         CellChunk.mk [] none none 0 [] (some RowStatus.CommitRow)]] =
      Except.ok [(K, [RowCell.mk F Qa Va Ta, RowCell.mk G Qb Vb Tb])] ∧
    (runChunks initState
      [CellChunk.mk K (some F) (some Qa) Ta Va none,
       CellChunk.mk [] (some G) (some Qb) Tb Vb none]).row_data =
      [RowCell.mk F Qa Va Ta] := by
  constructor <;>
    simp [decodeReadRowsResponse, decodeGo, runChunks, processChunk,
      applyRowKey, startCell, appendValue, applyStatus, initState, hK]

/-- C5 (witness): concrete two-cell row. -/
theorem c5_multi_cell_row_witness :
    decodeReadRowsResponse none
      [StreamItem.msg 0
        [CellChunk.mk [1] (some "f") (some [2]) 11 [4] none,
         CellChunk.mk [] (some "g") (some [3]) 12 [5] none,
         CellChunk.mk [] none none 0 [] (some RowStatus.CommitRow)]] =
      Except.ok [([1],
        [RowCell.mk "f" [2] [4] 11, RowCell.mk "g" [3] [5] 12])] ∧
    (runChunks initState
      [CellChunk.mk [1] (some "f") (some [2]) 11 [4] none,
       CellChunk.mk [] (some "g") (some [3]) 12 [5] none]).row_data =
      [RowCell.mk "f" [2] [4] 11] :=
  c5_multi_cell_row [1] [2] [3] [4] [5] "f" "g" 11 12 (by decide)

/-- C6. A chunk `{row_key=K, qualifier=Q, family=F, timestamp=T,
value=V1, status=continue}` followed by `{value=V2, status=Commit}`
decodes to exactly `[(K, [{F, Q, V1++V2, T}])]`: the cell's value is the
concatenation of the fragments in arrival order and its timestamp is
the one carried by the first, qualifier-bearing chunk (the second
chunk's timestamp field is ignored). -/
theorem c6_split_value_cell
    (K Q V1 V2 : Bytes) (F : String) (T T2 : Int) (hK : K ≠ []) :
    decodeReadRowsResponse none
      [StreamItem.msg 0
        [CellChunk.mk K (some F) (some Q) T V1 none,
         CellChunk.mk [] none none T2 V2 (some RowStatus.CommitRow)]] =
      Except.ok [(K, [RowCell.mk F Q (V1 ++ V2) T])] := by
  simp [decodeReadRowsResponse, decodeGo, runChunks, processChunk,
    applyRowKey, startCell, appendValue, applyStatus, initState, hK]

/-- C6 (witness): concrete split-value cell. -/
theorem c6_split_value_cell_witness :
    decodeReadRowsResponse none
      [StreamItem.msg 0
        [CellChunk.mk [1] (some "f") (some [2]) 11 [4] none,
         CellChunk.mk [] none none 99 [5]
          (some RowStatus.CommitRow)]] =
      Except.ok [([1], [RowCell.mk "f" [2] ([4] ++ [5]) 11])] :=
  c6_split_value_cell [1] [2] [4] [5] "f" 11 99 (by decide)

/-- C7. A `CommitRow` chunk (no qualifier, no new row key) arriving
while a row key is set but no cell is pending emits the row with exactly
the cells already closed (possibly empty), records a diagnostic
warning, raises no error, and decoding continues with the rest of the
stream. -/
theorem c7_commit_without_pending_cell
    (s : DecodeState) (c : CellChunk) (k : RowKey)
    (hrk : s.row_key = some k) (hn : s.cell_name = none)
    (hq : c.qualifier = none) (hck : c.row_key = [])
    (hst : c.row_status = some RowStatus.CommitRow) :
    (processChunk s c).rows = s.rows ++ [(k, s.row_data)] ∧
    (processChunk s c).row_data = [] ∧
    (processChunk s c).row_key = none ∧
    (processChunk s c).warnings = s.warnings + 1 ∧
    (∀ (e : Duration) (cs : List CellChunk) (rest : List StreamItem),
      decodeGo none s (StreamItem.msg e (c :: cs) :: rest) =
        decodeGo none (runChunks (processChunk s c) cs) rest) := by
  obtain ⟨rk, fam, cq, ts, v, st⟩ := c
  change cq = none at hq
  change rk = [] at hck
  change st = _ at hst
  subst hq; subst hck; subst hst
  refine ⟨?_, ?_, ?_, ?_, fun e cs rest => rfl⟩ <;>
    simp [processChunk, applyRowKey, startCell, appendValue,
      applyStatus, hrk, hn]

/-- C7 (witness): commit with a row key set, one closed cell and no
pending cell. -/
theorem c7_commit_without_pending_cell_witness :
    (processChunk
      { rows := [], row_key := some [3],
        row_data := [RowCell.mk "f" [1] [2] 5],
        cell_family_name := none, cell_name := none,
        cell_timestamp := 0, cell_value := [], warnings := 0 }
      (CellChunk.mk [] none none 0 []
        (some RowStatus.CommitRow))).rows =
      [] ++ [([3], [RowCell.mk "f" [1] [2] 5])] ∧
    (processChunk
      { rows := [], row_key := some [3],
        row_data := [RowCell.mk "f" [1] [2] 5],
        cell_family_name := none, cell_name := none,
        cell_timestamp := 0, cell_value := [], warnings := 0 }
      (CellChunk.mk [] none none 0 []
        (some RowStatus.CommitRow))).row_data = [] ∧
    (processChunk
      { rows := [], row_key := some [3],
        row_data := [RowCell.mk "f" [1] [2] 5],
        cell_family_name := none, cell_name := none,
        cell_timestamp := 0, cell_value := [], warnings := 0 }
      (CellChunk.mk [] none none 0 []
        (some RowStatus.CommitRow))).row_key = none ∧
    (processChunk
      { rows := [], row_key := some [3],
        row_data := [RowCell.mk "f" [1] [2] 5],
        cell_family_name := none, cell_name := none,
        cell_timestamp := 0, cell_value := [], warnings := 0 }
      (CellChunk.mk [] none none 0 []
        (some RowStatus.CommitRow))).warnings = 0 + 1 ∧
    (∀ (e : Duration) (cs : List CellChunk) (rest : List StreamItem),
      decodeGo none
        { rows := [], row_key := some [3],
          row_data := [RowCell.mk "f" [1] [2] 5],
          cell_family_name := none, cell_name := none,
          cell_timestamp := 0, cell_value := [], warnings := 0 }
        (StreamItem.msg e
          (CellChunk.mk [] none none 0 []
            (some RowStatus.CommitRow) :: cs) :: rest) =
        decodeGo none
          (runChunks
            (processChunk
              { rows := [], row_key := some [3],
                row_data := [RowCell.mk "f" [1] [2] 5],
                cell_family_name := none, cell_name := none,
                cell_timestamp := 0, cell_value := [], warnings := 0 }
              (CellChunk.mk [] none none 0 []
                (some RowStatus.CommitRow))) cs) rest) :=
  c7_commit_without_pending_cell
    { rows := [], row_key := some [3],
      row_data := [RowCell.mk "f" [1] [2] 5],
      cell_family_name := none, cell_name := none,
      cell_timestamp := 0, cell_value := [], warnings := 0 }
    (CellChunk.mk [] none none 0 [] (some RowStatus.CommitRow))
    [3] rfl rfl rfl rfl rfl

/-- C8. With a configured deadline `t`, a pure-message stream in which
some batch's observed elapsed time strictly exceeds `t` makes
`decode_read_rows_response` return the timeout error carrying the
configured deadline in whole seconds; no partial rows are returned
(the result is an error, not a row list). -/
theorem c8_timeout_discards_partial_rows
    (t : Duration) (msgs : List (Duration × List CellChunk))
    (h : ∃ p ∈ msgs, t < p.1) :
    decodeReadRowsResponse (some t)
      (msgs.map fun p => StreamItem.msg p.1 p.2) =
      Except.error (Error.TimeoutError (Duration.as_secs t)) := by
  have H : ∀ (ms : List (Duration × List CellChunk)),
      (∃ p ∈ ms, t < p.1) → ∀ s : DecodeState,
      decodeGo (some t) s (ms.map fun p => StreamItem.msg p.1 p.2) =
        Except.error (Error.TimeoutError (Duration.as_secs t)) := by
    intro ms
    induction ms with
    | nil => intro h'; simp at h'
    | cons p rest ih =>
      intro h' s
      simp only [List.map_cons, decodeGo]
      by_cases hp : t < p.1
      · rw [if_pos hp]
      · rw [if_neg hp]
        have hrest : ∃ q ∈ rest, t < q.1 := by
          rcases h' with ⟨q, hq, hlt⟩
          rcases List.mem_cons.mp hq with rfl | hmem
          · exact absurd hlt hp
          · exact ⟨q, hmem, hlt⟩
        exact ih hrest (runChunks s p.2)
  exact H msgs h initState

/-- C8 (witness): a 1.5 s deadline and a batch observed at 2 s. -/
theorem c8_timeout_discards_partial_rows_witness :
    decodeReadRowsResponse (some 1500000000)
      (([(2000000000,
          [CellChunk.mk [1] (some "f") (some [2]) 3 [4]
            (some RowStatus.CommitRow)])] :
        List (Duration × List CellChunk)).map
        fun p => StreamItem.msg p.1 p.2) =
      Except.error (Error.TimeoutError 1) :=
  c8_timeout_discards_partial_rows 1500000000
    [(2000000000,
      [CellChunk.mk [1] (some "f") (some [2]) 3 [4]
        (some RowStatus.CommitRow)])]
    ⟨(2000000000,
      [CellChunk.mk [1] (some "f") (some [2]) 3 [4]
        (some RowStatus.CommitRow)]),
      List.mem_singleton.mpr rfl, by decide⟩

/-- Helper: with no deadline, a pure-message stream decodes to `ok` of
the final state's assembled rows. -/
theorem decodeGo_none_pure_msgs
    (msgs : List (Duration × List CellChunk)) (s : DecodeState) :
    decodeGo none s (msgs.map fun p => StreamItem.msg p.1 p.2) =
      Except.ok (msgs.foldl (fun u p => runChunks u p.2) s).rows := by
  induction msgs generalizing s with
  | nil => rfl
  | cons p rest ih => simpa [decodeGo] using ih (runChunks s p.2)

/-- C9. At clean end-of-stream the call returns successfully with
exactly the rows committed so far, in commit order (the `rows` field of
the final fold state), regardless of any dangling open row key,
accumulated cells or pending cell, which contribute nothing; and a
chunk whose status is not `CommitRow` never adds a row, so only
committed rows ever appear. -/
theorem c9_end_of_stream_returns_committed_rows :
    (∀ msgs : List (Duration × List CellChunk),
      decodeReadRowsResponse none
        (msgs.map fun p => StreamItem.msg p.1 p.2) =
        Except.ok
          (msgs.foldl (fun u p => runChunks u p.2) initState).rows) ∧
    (∀ (s : DecodeState) (c : CellChunk),
      c.row_status ≠ some RowStatus.CommitRow →
      (processChunk s c).rows = s.rows) := by
  constructor
  · intro msgs
    exact decodeGo_none_pure_msgs msgs initState
  · intro s c h
    obtain ⟨rk, fam, cq, ts, v, st⟩ := c
    change st ≠ some RowStatus.CommitRow at h
    have hrows1 : ∀ (u : DecodeState),
        (applyRowKey u (CellChunk.mk rk fam cq ts v st)).rows = u.rows := by
      intro u
      unfold applyRowKey
      split <;> rfl
    have hrows2 : ∀ (u : DecodeState),
        (startCell u (CellChunk.mk rk fam cq ts v st)).rows = u.rows := by
      intro u
      unfold startCell
      cases cq with
      | none => rfl
      | some q => cases u.cell_name <;> rfl
    have hrows3 : ∀ (u : DecodeState),
        (applyStatus u (CellChunk.mk rk fam cq ts v st)).rows =
          u.rows := by
      intro u
      unfold applyStatus
      cases st with
      | none => rfl
      | some r =>
        cases r with
        | CommitRow => exact absurd rfl h
        | ResetRow => rfl
    have hrows4 : ∀ (u : DecodeState),
        (appendValue u (CellChunk.mk rk fam cq ts v st)).rows =
          u.rows :=
      fun _ => rfl
    rw [processChunk, hrows3, hrows4, hrows2, hrows1]

/-- C9 (witness): a stream ending mid-row (key set, cell pending, no
commit) yields the empty row list; the non-commit chunk added no row. -/
theorem c9_end_of_stream_returns_committed_rows_witness :
    decodeReadRowsResponse none
      (([(5, [CellChunk.mk [1] (some "f") (some [2]) 3 [4] none])] :
        List (Duration × List CellChunk)).map
        fun p => StreamItem.msg p.1 p.2) =
      Except.ok
        (([(5, [CellChunk.mk [1] (some "f") (some [2]) 3 [4] none])] :
          List (Duration × List CellChunk)).foldl
          (fun u p => runChunks u p.2) initState).rows ∧
    (processChunk initState
      (CellChunk.mk [1] (some "f") (some [2]) 3 [4] none)).rows =
      initState.rows :=
  ⟨c9_end_of_stream_returns_committed_rows.1
    [(5, [CellChunk.mk [1] (some "f") (some [2]) 3 [4] none])],
   c9_end_of_stream_returns_committed_rows.2 initState
    (CellChunk.mk [1] (some "f") (some [2]) 3 [4] none) (by decide)⟩

/-- C10. Cell start and row start are gated by different tests: a chunk
whose qualifier is present but empty starts a new cell exactly as a
non-empty qualifier would (the resulting states differ only in the
recorded qualifier), whereas a chunk whose row key is empty leaves the
current row key — indeed the whole row-key phase — unchanged, and a
non-empty row key replaces it. -/
theorem c10_qualifier_presence_rowkey_nonempty
    (s : DecodeState) (c : CellChunk) :
    (c.row_key = [] → applyRowKey s c = s) ∧
    (c.row_key ≠ [] → (applyRowKey s c).row_key = some c.row_key) ∧
    (c.qualifier = some [] → ∀ q : Bytes,
      startCell s { c with qualifier := some q } =
        { startCell s c with cell_name := some q }) := by
  refine ⟨?_, ?_, ?_⟩
  · intro h
    simp [applyRowKey, h]
  · intro h
    simp [applyRowKey, h]
  · intro h q
    cases hn : s.cell_name <;>
      simp [startCell, h, hn]

/-- C10 (witness): empty qualifier versus empty row key on a state with
a pending cell. -/
theorem c10_qualifier_presence_rowkey_nonempty_witness :
    applyRowKey
      { rows := [], row_key := some [3], row_data := [],
        cell_family_name := some "f", cell_name := some [1],
        cell_timestamp := 5, cell_value := [2], warnings := 0 }
      (CellChunk.mk [] (some "g") (some []) 9 [7] none) =
      { rows := [], row_key := some [3], row_data := [],
        cell_family_name := some "f", cell_name := some [1],
        cell_timestamp := 5, cell_value := [2], warnings := 0 } ∧
    (applyRowKey
      { rows := [], row_key := some [3], row_data := [],
        cell_family_name := some "f", cell_name := some [1],
        cell_timestamp := 5, cell_value := [2], warnings := 0 }
      (CellChunk.mk [4] none none 0 [] none)).row_key =
      some (CellChunk.mk [4] none none 0 [] none).row_key ∧
    startCell
      { rows := [], row_key := some [3], row_data := [],
        cell_family_name := some "f", cell_name := some [1],
        cell_timestamp := 5, cell_value := [2], warnings := 0 }
      { CellChunk.mk [] (some "g") (some []) 9 [7] none with
        qualifier := some [6] } =
      { startCell
          { rows := [], row_key := some [3], row_data := [],
            cell_family_name := some "f", cell_name := some [1],
            cell_timestamp := 5, cell_value := [2], warnings := 0 }
          (CellChunk.mk [] (some "g") (some []) 9 [7] none) with
        cell_name := some [6] } :=
  ⟨(c10_qualifier_presence_rowkey_nonempty
      { rows := [], row_key := some [3], row_data := [],
        cell_family_name := some "f", cell_name := some [1],
        cell_timestamp := 5, cell_value := [2], warnings := 0 }
      (CellChunk.mk [] (some "g") (some []) 9 [7] none)).1 rfl,
   (c10_qualifier_presence_rowkey_nonempty
      { rows := [], row_key := some [3], row_data := [],
        cell_family_name := some "f", cell_name := some [1],
        cell_timestamp := 5, cell_value := [2], warnings := 0 }
      (CellChunk.mk [4] none none 0 [] none)).2.1 (by decide),
   (c10_qualifier_presence_rowkey_nonempty
      { rows := [], row_key := some [3], row_data := [],
        cell_family_name := some "f", cell_name := some [1],
        cell_timestamp := 5, cell_value := [2], warnings := 0 }
      (CellChunk.mk [] (some "g") (some []) 9 [7] none)).2.2 rfl [6]⟩

end BigtableRs
